import Mathlib

/-!
Shallow embedding of `src/main.rs` of the `electrorustogram` repository:
a terminal CPU "ECG" visualizer.  Rust `f32` values are modelled as exact
rationals (`ℚ`), `u16`/`u32`/`usize` as `ℕ` (saturating subtraction is `ℕ`
subtraction), `Vec<f32>` as `List ℚ`.  The trigonometric function
`f32::sin` and the `format!` text formatter are external black boxes and
are passed as explicit function parameters where the code uses them.
-/

namespace Electro

/-- `HEADER_ROWS` from main.rs. -/
def HEADER_ROWS : ℕ := 1

/-- `FOOTER_ROWS` from main.rs. -/
def FOOTER_ROWS : ℕ := 1

/-- `LEFT_GUTTER` from main.rs. -/
def LEFT_GUTTER : ℕ := 5

/-- `GRID_ROW_STEP` from main.rs. -/
def GRID_ROW_STEP : ℕ := 4

/-- `GRID_COL_STEP` from main.rs. -/
def GRID_COL_STEP : ℕ := 6

/-- `MIN_PLOT_HEIGHT` from main.rs. -/
def MIN_PLOT_HEIGHT : ℕ := 4

/-- `MIN_PLOT_WIDTH` from main.rs. -/
def MIN_PLOT_WIDTH : ℕ := 10

/-- `FPS_DEFAULT` from main.rs. -/
def FPS_DEFAULT : ℕ := 30

/-- `FPS_MIN` from main.rs. -/
def FPS_MIN : ℕ := 10

/-- `FPS_MAX` from main.rs. -/
def FPS_MAX : ℕ := 60

/-- `PHASE_DELTA_BASE` from main.rs (`0.25f32`). -/
def PHASE_DELTA_BASE : ℚ := 1/4

/-- `PHASE_DELTA_LOAD_SCALE` from main.rs (`0.7f32`). -/
def PHASE_DELTA_LOAD_SCALE : ℚ := 7/10

/-- `PHASE_WRAP` from main.rs (`1000.0f32`). -/
def PHASE_WRAP : ℚ := 1000

/-- `PERCENT_SCALE` from main.rs (`100.0f32`). -/
def PERCENT_SCALE : ℚ := 100

/-- `PULSE_LOAD_THRESHOLD` from main.rs (`0.7f32`). -/
def PULSE_LOAD_THRESHOLD : ℚ := 7/10

/-- `PULSE_INTERVAL_TICKS` from main.rs. -/
def PULSE_INTERVAL_TICKS : ℕ := 18

/-- `PULSE_PEAK` from main.rs (`1.0f32`). -/
def PULSE_PEAK : ℚ := 1

/-- `PULSE_DECAY` from main.rs (`0.65f32`). -/
def PULSE_DECAY : ℚ := 13/20

/-- `PULSE_GAIN` from main.rs (`0.9f32`). -/
def PULSE_GAIN : ℚ := 9/10

/-- `BASE_AMPLITUDE` from main.rs (`0.7f32`). -/
def BASE_AMPLITUDE : ℚ := 7/10

/-- `LOW_LOAD_THRESHOLD` from main.rs (`0.2f32`). -/
def LOW_LOAD_THRESHOLD : ℚ := 1/5

/-- `LOW_LOAD_AMPLITUDE` from main.rs (`0.4f32`). -/
def LOW_LOAD_AMPLITUDE : ℚ := 2/5

/-- `LOW_LOAD_PHASE_SCALE` from main.rs (`0.7f32`). -/
def LOW_LOAD_PHASE_SCALE : ℚ := 7/10

/-- `SIGNAL_MIN` from main.rs (`-1.0f32`). -/
def SIGNAL_MIN : ℚ := -1

/-- `SIGNAL_MAX` from main.rs (`1.0f32`). -/
def SIGNAL_MAX : ℚ := 1

/-- `SIGNAL_RANGE = SIGNAL_MAX - SIGNAL_MIN` from main.rs. -/
def SIGNAL_RANGE : ℚ := SIGNAL_MAX - SIGNAL_MIN

/-- `START_TICK` from main.rs: the tick counter starts at 1. -/
def START_TICK : ℕ := 1

/-- `FOOTER_TEXT` from main.rs, as a character list. -/
def FOOTER_TEXT : List Char := "Press Q/Esc to quit  +/- to change FPS".toList

/-- The crossterm colors used by main.rs. -/
inductive Color where
  | green
  | yellow
  | red
  | white
  | darkGrey
deriving DecidableEq

/-- `line_color` from main.rs: trace color selection by load band. -/
def line_color (load : ℚ) : Color :=
  if load < 1/2 then Color.green
  else if load < 3/4 then Color.yellow
  else Color.red

/-- `clamp_sample` from main.rs: `value.clamp(SIGNAL_MIN, SIGNAL_MAX)`
(Rust `clamp` returns `min` when below, `max` when above, the value
otherwise). -/
def clamp_sample (value : ℚ) : ℚ :=
  if value < SIGNAL_MIN then SIGNAL_MIN
  else if value > SIGNAL_MAX then SIGNAL_MAX
  else value

/-- The oscillator state owned by the main loop: the loop-local `phase`
and `pulse` variables of main.rs. -/
structure OscState where
  phase : ℚ
  pulse : ℚ
deriving DecidableEq

/-- The pulse trigger condition of main.rs:
`load > PULSE_LOAD_THRESHOLD && tick.is_multiple_of(PULSE_INTERVAL_TICKS)`. -/
def pulseTriggered (load : ℚ) (tick : ℕ) : Bool :=
  decide (PULSE_LOAD_THRESHOLD < load) && (tick % PULSE_INTERVAL_TICKS == 0)

/-- One tick of the pulse dynamics of main.rs: reset to `PULSE_PEAK` when
triggered, then `pulse *= PULSE_DECAY` unconditionally. -/
def pulseStep (load : ℚ) (tick : ℕ) (pulse : ℚ) : ℚ :=
  (if pulseTriggered load tick then PULSE_PEAK else pulse) * PULSE_DECAY

/-- The pulse value after the drawing ticks `START_TICK`, `START_TICK+1`,
..., `START_TICK+n-1` have been processed with a constant sustained load,
starting from pulse value `p0`. -/
def pulseAfter (load : ℚ) (p0 : ℚ) : ℕ → ℚ
  | 0 => p0
  | n + 1 => pulseStep load (START_TICK + n) (pulseAfter load p0 n)

/-- One waveform-generator step: the body of the drawing branch of the
main loop (main.rs lines 246-261), parametric in the external `f32::sin`
(`sinf`).  Returns the sample pushed into the window together with the
updated oscillator state. -/
def advance (sinf : ℚ → ℚ) (load : ℚ) (tick : ℕ) (st : OscState) : ℚ × OscState :=
  let phase_delta := PHASE_DELTA_BASE + load * PHASE_DELTA_LOAD_SCALE
  let pulse := pulseStep load tick st.pulse
  let base := BASE_AMPLITUDE * sinf st.phase
  let sample0 := base + pulse * PULSE_GAIN
  let sample1 :=
    if load < LOW_LOAD_THRESHOLD then
      LOW_LOAD_AMPLITUDE * sinf (st.phase * LOW_LOAD_PHASE_SCALE)
    else sample0
  let sample := clamp_sample sample1
  let phase1 := st.phase + phase_delta
  let phase2 := if phase1 > PHASE_WRAP then 0 else phase1
  (sample, ⟨phase2, pulse⟩)

/-- `resize_samples` from main.rs: no-op at target width, grow by
repeating `fill` at the back, shrink by draining from the front. -/
def resize_samples (samples : List ℚ) (width : ℕ) (fill : ℚ) : List ℚ :=
  if samples.length = width then samples
  else if samples.length < width then
    samples ++ List.replicate (width - samples.length) fill
  else
    samples.drop (samples.length - width)

/-- The per-tick sample-window update of the main loop (main.rs lines
266-277): the first drawing tick seeds the whole window with the current
sample; afterwards the window is resized to the plot width (fill = last
sample, or the current sample when the window is empty), the new sample is
pushed, and the front element is removed when the window exceeds the plot
width. -/
def updateWindow (seeded : Bool) (samples : List ℚ) (plotWidth : ℕ) (sample : ℚ) :
    List ℚ :=
  if !seeded then
    List.replicate plotWidth sample
  else
    let fill := samples.getLast?.getD sample
    let s1 := resize_samples samples plotWidth fill
    let s2 := s1 ++ [sample]
    if plotWidth < s2.length then s2.drop 1 else s2

/-- Rust `f32::round`: rounding to the nearest integer, ties away from
zero. -/
def roundAway (x : ℚ) : ℤ :=
  if 0 ≤ x then ⌊x + 1/2⌋ else ⌈x - 1/2⌉

/-- The row index computed for one sample in `render` (main.rs lines
102-104): `((1.0 - normalized) * (plot_height as f32 - 1.0)).round() as
usize`, then `.min(plot_height - 1)`.  Rust's `as usize` cast of an `f32`
saturates, which `Int.toNat` models for the negative side. -/
def rowIndex (plotHeight : ℕ) (sample : ℚ) : ℕ :=
  let normalized := (sample - SIGNAL_MIN) / SIGNAL_RANGE
  let y := (roundAway ((1 - normalized) * ((plotHeight : ℚ) - 1))).toNat
  min y (plotHeight - 1)

/-- The rows painted with the vertical connector `'|'` between two
consecutive trace rows (main.rs line 110): `for row in (min_y + 1)..max_y`. -/
def connectorRows (a b : ℕ) : List ℕ :=
  List.range' (min a b + 1) (max a b - (min a b + 1))

/-- The trace points pushed for one column of the plot (main.rs lines
105-115): the `'*'` marker at `(x, y)`, followed by the vertical
connectors when the previous column's row exists and differs. -/
def colBlock (prev : Option ℕ) (x y : ℕ) : List (ℕ × ℕ × Char) :=
  (x, y, '*') ::
    (match prev with
     | some p => if p ≠ y then (connectorRows p y).map (fun r => (x, r, '|')) else []
     | none => [])

/-- The trace-point loop of `render` (main.rs lines 101-117), over the
already-computed row indices.  `prev` is the `prev_y` accumulator, `x`
the next column index. -/
def tracePointsFrom : Option ℕ → ℕ → List ℕ → List (ℕ × ℕ × Char)
  | _, _, [] => []
  | prev, x, y :: rest => colBlock prev x y ++ tracePointsFrom (some y) (x + 1) rest

/-- The full trace-point list of one `render` call, starting with
`prev_y = None` at column 0. -/
def tracePoints (ys : List ℕ) : List (ℕ × ℕ × Char) :=
  tracePointsFrom none 0 ys

/-- The row indices of the samples drawn by `render`:
`samples.iter().enumerate().take(plot_width)` mapped through the row
computation. -/
def rasterYs (plotHeight plotWidth : ℕ) (samples : List ℚ) : List ℕ :=
  (samples.take plotWidth).map (rowIndex plotHeight)

/-- The background character buffer of `render` (main.rs lines 92-97):
spaces with a dot at every cell whose row and column are multiples of the
grid steps. -/
def gridBuffer (plotHeight plotWidth : ℕ) : List (List Char) :=
  (List.range plotHeight).map fun row =>
    (List.range plotWidth).map fun col =>
      if row % GRID_ROW_STEP = 0 ∧ col % GRID_COL_STEP = 0 then '.' else ' '

/-- The left-gutter text of a plot row (main.rs lines 142-155). -/
def gutterFor (plotHeight row : ℕ) : List Char :=
  if row = 0 then " 1.0|".toList
  else if row = plotHeight / 2 then " 0.0|".toList
  else if row = plotHeight - 1 then "-1.0|".toList
  else "     ".toList

/-- `pad_to_width` from main.rs: truncate to the terminal width, then pad
with spaces up to it. -/
def pad_to_width (text : List Char) (width : ℕ) : List Char :=
  let out := text.take width
  out ++ List.replicate (width - out.length) ' '

/-- `RenderMetrics` from main.rs. -/
structure RenderMetrics where
  load : ℚ
  phase : ℚ
  pulse : ℚ
  fps : ℕ
  phase_delta : ℚ
deriving DecidableEq

/-- The exact value of the `f32` constant `std::f32::consts::TAU`. -/
def TAU : ℚ := 13176795/2097152

/-- The terminal commands queued by `render`, modelling the crossterm
command stream. -/
inductive Cmd where
  | clearAll
  | moveTo (x y : ℕ)
  | setFg (c : Color)
  | print (text : List Char)
  | resetColor
deriving DecidableEq

/-- The command stream of the drawing part of `render` (main.rs lines
119-174), parametric in the external `format!` header formatter
`fmtHeader`, which receives the five formatted values
`load * PERCENT_SCALE`, `fps`, `osc_hz`, `phase`, `pulse`. -/
def drawCommands (fmtHeader : ℚ → ℕ → ℚ → ℚ → ℚ → List Char)
    (width height plotHeight plotWidth : ℕ) (samples : List ℚ)
    (m : RenderMetrics) (fullClear : Bool) : List Cmd :=
  let osc_hz := if m.phase_delta > 0 then m.phase_delta * (m.fps : ℚ) / TAU else 0
  let header := fmtHeader (m.load * PERCENT_SCALE) m.fps osc_hz m.phase m.pulse
  (if fullClear then [Cmd.clearAll] else []) ++
  [Cmd.moveTo 0 0, Cmd.setFg Color.white, Cmd.print (pad_to_width header width),
   Cmd.setFg Color.darkGrey] ++
  ((List.range plotHeight).map fun row =>
    [Cmd.moveTo 0 (HEADER_ROWS + row), Cmd.print (gutterFor plotHeight row),
     Cmd.moveTo LEFT_GUTTER (HEADER_ROWS + row),
     Cmd.print ((gridBuffer plotHeight plotWidth).getD row [])]).flatten ++
  [Cmd.setFg (line_color m.load)] ++
  ((tracePoints (rasterYs plotHeight plotWidth samples)).map fun p =>
    [Cmd.moveTo (LEFT_GUTTER + p.1) (HEADER_ROWS + p.2.1), Cmd.print [p.2.2]]).flatten ++
  [Cmd.setFg Color.darkGrey, Cmd.moveTo 0 (height - 1),
   Cmd.print (pad_to_width FOOTER_TEXT width), Cmd.resetColor]

/-- `render` from main.rs, as a pure function from the reported terminal
size and inputs to the queued command stream.  The two early returns
(zero-sized terminal; plot below the minimum bounds) return `Ok` with no
commands queued. -/
def render (fmtHeader : ℚ → ℕ → ℚ → ℚ → ℚ → List Char)
    (width height : ℕ) (samples : List ℚ) (m : RenderMetrics)
    (fullClear : Bool) : Except String (List Cmd) :=
  if width = 0 ∨ height = 0 then Except.ok []
  else
    let plotHeight := height - (HEADER_ROWS + FOOTER_ROWS)
    let plotWidth := width - LEFT_GUTTER
    if plotHeight < MIN_PLOT_HEIGHT ∨ plotWidth < MIN_PLOT_WIDTH then Except.ok []
    else Except.ok (drawCommands fmtHeader width height plotHeight plotWidth samples m fullClear)

/-- The two frame-rate keyboard actions of the main loop: `+`/`=` and
`-`/`_`. -/
inductive FpsAction where
  | inc
  | dec
deriving DecidableEq

/-- One frame-rate key action (main.rs lines 230-235):
`fps = (fps + 5).min(FPS_MAX)` respectively
`fps = fps.saturating_sub(5).max(FPS_MIN)`. -/
def fpsStep : FpsAction → ℕ → ℕ
  | FpsAction.inc, f => min (f + 5) FPS_MAX
  | FpsAction.dec, f => max (f - 5) FPS_MIN

/-- The frame rate after a sequence of key actions, starting from
`FPS_DEFAULT`. -/
def fpsAfter (acts : List FpsAction) : ℕ :=
  acts.foldl (fun f a => fpsStep a f) FPS_DEFAULT

/-! ## Helper lemmas -/

theorem clamp_sample_mem (v : ℚ) :
    SIGNAL_MIN ≤ clamp_sample v ∧ clamp_sample v ≤ SIGNAL_MAX := by
  unfold clamp_sample SIGNAL_MIN SIGNAL_MAX
  split_ifs <;> constructor <;> linarith

theorem resize_samples_length (s : List ℚ) (w : ℕ) (f : ℚ) :
    (resize_samples s w f).length = w := by
  unfold resize_samples
  split_ifs with h1 h2
  · exact h1
  · simp only [List.length_append, List.length_replicate]; omega
  · simp only [List.length_drop]; omega

theorem resize_samples_noop (s : List ℚ) (w : ℕ) (f : ℚ) (h : s.length = w) :
    resize_samples s w f = s := by
  unfold resize_samples; rw [if_pos h]

/-! ## Claim theorems -/

/-- C1: for every load value and every oscillator state (any phase, any
pulse) and any value of the external sine, the sample produced by one
waveform-generator step lies within the signal range `[-1, 1]`: the final
sample is clamped to that range before it is stored. -/
theorem advance_sample_in_range (sinf : ℚ → ℚ) (load : ℚ) (tick : ℕ) (st : OscState) :
    SIGNAL_MIN ≤ (advance sinf load tick st).1 ∧
    (advance sinf load tick st).1 ≤ SIGNAL_MAX := by
  simp only [advance]
  exact clamp_sample_mem _

/-- C2: after any per-tick window update (including the first-frame
seeding path) and for any prior window contents, the sample window length
equals the current plot width, terminal width minus the left gutter. -/
theorem window_length_eq_plot_width (seeded : Bool) (samples : List ℚ)
    (width : ℕ) (sample : ℚ) :
    (updateWindow seeded samples (width - LEFT_GUTTER) sample).length =
      width - LEFT_GUTTER := by
  unfold updateWindow
  cases seeded with
  | false => simp
  | true =>
    simp only [Bool.not_true, Bool.false_eq_true, if_false]
    have h1 : (resize_samples samples (width - LEFT_GUTTER)
        (samples.getLast?.getD sample) ++ [sample]).length =
        (width - LEFT_GUTTER) + 1 := by
      simp [resize_samples_length]
    rw [if_pos (by omega)]
    simp only [List.length_drop, h1]
    omega

/-- C9: the sample-window resize is idempotent: a no-op when the window
is already at the target width, and applying it twice at the same width
equals applying it once. -/
theorem resize_samples_idempotent (s : List ℚ) (w : ℕ) (f : ℚ) :
    (s.length = w → resize_samples s w f = s) ∧
    resize_samples (resize_samples s w f) w f = resize_samples s w f :=
  ⟨resize_samples_noop s w f,
   resize_samples_noop _ w f (resize_samples_length s w f)⟩

/-- Witness for C9 at concrete inputs. -/
theorem resize_samples_idempotent_witness :
    resize_samples [(1:ℚ), 2] 2 0 = [1, 2] ∧
    resize_samples (resize_samples [(1:ℚ)] 3 5) 3 5 = resize_samples [(1:ℚ)] 3 5 :=
  ⟨(resize_samples_idempotent [1, 2] 2 0).1 rfl,
   (resize_samples_idempotent [1] 3 5).2⟩

/-- C7: resizing a 20-sample window to width 30 with fill equal to the
window's last sample appends ten copies of that last sample: the first 20
entries are unchanged in order and the last 10 all equal the prior last
sample. -/
theorem resize_grow_fill (s : List ℚ) (last : ℚ) (hlen : s.length = 20)
    (_hlast : s.getLast? = some last) :
    resize_samples s 30 last = s ++ List.replicate 10 last ∧
    (resize_samples s 30 last).length = 30 ∧
    (resize_samples s 30 last).take 20 = s ∧
    (resize_samples s 30 last).drop 20 = List.replicate 10 last := by
  have h : resize_samples s 30 last = s ++ List.replicate 10 last := by
    unfold resize_samples
    rw [hlen]
    norm_num
  refine ⟨h, ?_, ?_, ?_⟩ <;> rw [h]
  · simp [hlen]
  · rw [← hlen]; exact List.take_left s _
  · rw [← hlen]; exact List.drop_left s _

/-- Witness for C7 at a concrete 20-sample window. -/
theorem resize_grow_fill_witness :
    resize_samples (List.replicate 20 (3:ℚ)) 30 3 =
      List.replicate 20 (3:ℚ) ++ List.replicate 10 3 :=
  (resize_grow_fill (List.replicate 20 (3:ℚ)) 3 rfl rfl).1

/-- C6: `line_color` returns green for every load in `[0, 1/2)`, yellow
for every load in `[1/2, 3/4)`, and red for every load in `[3/4, 1]`; in
particular load `1/2` yields yellow and load `3/4` yields red. -/
theorem line_color_bands :
    (∀ l : ℚ, 0 ≤ l → l < 1/2 → line_color l = Color.green) ∧
    (∀ l : ℚ, 1/2 ≤ l → l < 3/4 → line_color l = Color.yellow) ∧
    (∀ l : ℚ, 3/4 ≤ l → l ≤ 1 → line_color l = Color.red) ∧
    line_color (1/2) = Color.yellow ∧ line_color (3/4) = Color.red := by
  refine ⟨?_, ?_, ?_, ?_, ?_⟩
  · intro l _ h; unfold line_color; rw [if_pos h]
  · intro l h1 h2; unfold line_color; rw [if_neg (by linarith), if_pos h2]
  · intro l h1 _; unfold line_color
    rw [if_neg (by linarith), if_neg (by linarith)]
  · norm_num [line_color]
  · norm_num [line_color]

/-- Witness for C6 at concrete loads on both sides of each boundary. -/
theorem line_color_bands_witness :
    line_color 0 = Color.green ∧ line_color (3/5) = Color.yellow ∧
    line_color 1 = Color.red :=
  ⟨line_color_bands.1 0 le_rfl (by norm_num),
   line_color_bands.2.1 (3/5) (by norm_num) (by norm_num),
   line_color_bands.2.2.1 1 (by norm_num) le_rfl⟩

/-- C8: when the terminal reports a 0×0 size, or the derived plot height
is below `MIN_PLOT_HEIGHT`, or the derived plot width is below
`MIN_PLOT_WIDTH`, `render` queues no drawing commands and returns `Ok`. -/
theorem render_degenerate_ok (fmt : ℚ → ℕ → ℚ → ℚ → ℚ → List Char)
    (width height : ℕ) (samples : List ℚ) (m : RenderMetrics) (fc : Bool)
    (h : (width = 0 ∧ height = 0) ∨
      height - (HEADER_ROWS + FOOTER_ROWS) < MIN_PLOT_HEIGHT ∨
      width - LEFT_GUTTER < MIN_PLOT_WIDTH) :
    render fmt width height samples m fc = Except.ok [] := by
  simp only [render]
  split_ifs with h1 h2
  · rfl
  · rfl
  · exfalso
    unfold HEADER_ROWS FOOTER_ROWS MIN_PLOT_HEIGHT MIN_PLOT_WIDTH LEFT_GUTTER at *
    push_neg at h1
    omega

/-- Witness for C8 at terminal size 0×0. -/
theorem render_degenerate_ok_witness :
    render (fun _ _ _ _ _ => []) 0 0 [] ⟨0, 0, 0, 30, 0⟩ false = Except.ok [] :=
  render_degenerate_ok (fun _ _ _ _ _ => []) 0 0 [] ⟨0, 0, 0, 30, 0⟩ false
    (Or.inl ⟨rfl, rfl⟩)

/-- Invariant preserved by one frame-rate key action: the rate stays in
`[FPS_MIN, FPS_MAX]` and remains a multiple of 5. -/
theorem fpsStep_inv (a : FpsAction) (f : ℕ)
    (h : FPS_MIN ≤ f ∧ f ≤ FPS_MAX ∧ f % 5 = 0) :
    FPS_MIN ≤ fpsStep a f ∧ fpsStep a f ≤ FPS_MAX ∧ fpsStep a f % 5 = 0 := by
  cases a <;> simp only [fpsStep, FPS_MIN, FPS_MAX] at h ⊢ <;> omega

theorem fpsFoldl_inv (acts : List FpsAction) :
    ∀ f : ℕ, (FPS_MIN ≤ f ∧ f ≤ FPS_MAX ∧ f % 5 = 0) →
      FPS_MIN ≤ acts.foldl (fun g a => fpsStep a g) f ∧
      acts.foldl (fun g a => fpsStep a g) f ≤ FPS_MAX ∧
      acts.foldl (fun g a => fpsStep a g) f % 5 = 0 := by
  induction acts with
  | nil => intro f h; simpa using h
  | cons a rest ih =>
    intro f h
    simpa using ih (fpsStep a f) (fpsStep_inv a f h)

theorem fpsAfter_inv (acts : List FpsAction) :
    FPS_MIN ≤ fpsAfter acts ∧ fpsAfter acts ≤ FPS_MAX ∧ fpsAfter acts % 5 = 0 :=
  fpsFoldl_inv acts FPS_DEFAULT (by norm_num [FPS_MIN, FPS_MAX, FPS_DEFAULT])

/-- C5: for any sequence of increase/decrease key actions starting from
the default frame rate of 30, the frame rate never leaves `[10, 60]`, and
each single further action changes it by exactly 5 except when it is
already at the corresponding bound. -/
theorem fps_bounds_and_step (acts : List FpsAction) :
    FPS_MIN ≤ fpsAfter acts ∧ fpsAfter acts ≤ FPS_MAX ∧
    fpsStep FpsAction.inc (fpsAfter acts) =
      (if fpsAfter acts = FPS_MAX then fpsAfter acts else fpsAfter acts + 5) ∧
    fpsStep FpsAction.dec (fpsAfter acts) =
      (if fpsAfter acts = FPS_MIN then fpsAfter acts else fpsAfter acts - 5) := by
  obtain ⟨h1, h2, h3⟩ := fpsAfter_inv acts
  refine ⟨h1, h2, ?_, ?_⟩ <;>
    · simp only [fpsStep, FPS_MIN, FPS_MAX] at *
      split_ifs <;> omega

/-- C3: with pulse period 18 and tick counting starting at 1, a sustained
load of `0.9` over the first 18 drawing ticks triggers the pulse reset
exactly at tick 18 and at none of ticks 1–17; each tick without a
retrigger multiplies the pulse by the decay factor, and the decay
multiplication is applied on every tick regardless of triggering. -/
theorem pulse_scenario_18 (p0 : ℚ) :
    (∀ t : ℕ, 1 ≤ t → t ≤ 18 → (pulseTriggered (9/10) t = true ↔ t = 18)) ∧
    pulseAfter (9/10) p0 18 = PULSE_PEAK * PULSE_DECAY ∧
    (∀ k : ℕ, k < PULSE_INTERVAL_TICKS →
      pulseAfter (9/10) p0 (18 + k) = PULSE_PEAK * PULSE_DECAY ^ (k + 1)) ∧
    (∀ (load : ℚ) (tick : ℕ) (q : ℚ),
      pulseStep load tick q = (if pulseTriggered load tick then PULSE_PEAK else q) * PULSE_DECAY) := by
  have hload : ((7:ℚ)/10 < 9/10) := by norm_num
  have hbase : pulseAfter (9/10 : ℚ) p0 18 = PULSE_PEAK * PULSE_DECAY := by
    have e : pulseAfter (9/10 : ℚ) p0 18 =
        pulseStep (9/10) 18 (pulseAfter (9/10) p0 17) := rfl
    rw [e]
    have ht : pulseTriggered (9/10 : ℚ) 18 = true := by
      simp [pulseTriggered, PULSE_LOAD_THRESHOLD, PULSE_INTERVAL_TICKS]
      norm_num
    rw [pulseStep, ht, if_pos rfl]
  refine ⟨?_, hbase, ?_, ?_⟩
  · intro t h1 h2
    simp only [pulseTriggered, PULSE_LOAD_THRESHOLD, PULSE_INTERVAL_TICKS,
      Bool.and_eq_true, decide_eq_true_eq, beq_iff_eq]
    constructor
    · rintro ⟨-, hm⟩; omega
    · rintro rfl; exact ⟨hload, rfl⟩
  · intro k
    induction k with
    | zero =>
      intro _
      simpa [pow_one] using hbase
    | succ j ih =>
      intro hj
      have hj' : j < PULSE_INTERVAL_TICKS := by
        unfold PULSE_INTERVAL_TICKS at *; omega
      have e : pulseAfter (9/10 : ℚ) p0 (18 + (j + 1)) =
          pulseStep (9/10) (START_TICK + (18 + j)) (pulseAfter (9/10) p0 (18 + j)) := by
        have : 18 + (j + 1) = (18 + j) + 1 := by omega
        rw [this]
        rfl
      rw [e, ih hj', pulseStep]
      have hmod : ¬(START_TICK + (18 + j)) % PULSE_INTERVAL_TICKS = 0 := by
        unfold START_TICK PULSE_INTERVAL_TICKS
        unfold PULSE_INTERVAL_TICKS at hj
        omega
      have ht : pulseTriggered (9/10 : ℚ) (START_TICK + (18 + j)) = false := by
        simp [pulseTriggered, hmod]
      rw [ht, if_neg (by simp)]
      ring
  · intro load tick q
    rfl

/-- Witness for C3: the trigger fires at tick 18, the pulse right after
tick 18 is the decayed peak, and three further ticks decay it three more
times. -/
theorem pulse_scenario_18_witness :
    pulseTriggered (9/10) 18 = true ∧
    pulseAfter (9/10) 0 18 = PULSE_PEAK * PULSE_DECAY ∧
    pulseAfter (9/10) 0 (18 + 3) = PULSE_PEAK * PULSE_DECAY ^ 4 :=
  ⟨((pulse_scenario_18 0).1 18 (by norm_num) (by norm_num)).mpr rfl,
   (pulse_scenario_18 0).2.1,
   (pulse_scenario_18 0).2.2.1 3 (by norm_num [PULSE_INTERVAL_TICKS])⟩

theorem roundAway_nonpos (x : ℚ) (h : x ≤ 0) : roundAway x ≤ 0 := by
  unfold roundAway
  split_ifs with h0
  · have hx : x = 0 := le_antisymm h h0
    subst hx
    norm_num
  · exact Int.ceil_le.mpr (by linarith)

theorem le_roundAway (x : ℚ) (m : ℤ) (hx : 0 ≤ x) (h : (m : ℚ) ≤ x) :
    m ≤ roundAway x := by
  unfold roundAway
  rw [if_pos hx]
  exact Int.le_floor.mpr (by linarith)

/-- C10: for every sample value handed to the rasterizer — including
values outside the signal range `[-1, 1]` — the computed row index lies
inside the character grid: it is below `plot_height`, samples above the
range map to row 0 (the saturating float-to-integer conversion), and
samples below the range are clamped to the bottom row by the `min`
bound. -/
theorem rowIndex_in_bounds (h : ℕ) (s : ℚ) (hh : 1 ≤ h) :
    rowIndex h s < h ∧
    (SIGNAL_MAX < s → rowIndex h s = 0) ∧
    (s < SIGNAL_MIN → rowIndex h s = h - 1) := by
  have hq : (1 : ℚ) ≤ (h : ℚ) := by exact_mod_cast hh
  refine ⟨?_, ?_, ?_⟩
  · simp only [rowIndex]
    have := min_le_right
      ((roundAway ((1 - (s - SIGNAL_MIN) / SIGNAL_RANGE) * ((h : ℚ) - 1))).toNat) (h - 1)
    omega
  · intro hs
    unfold SIGNAL_MAX at hs
    have hv : (1 - (s - SIGNAL_MIN) / SIGNAL_RANGE) * ((h : ℚ) - 1) ≤ 0 := by
      simp only [SIGNAL_RANGE, SIGNAL_MAX, SIGNAL_MIN]
      have h1 : 1 - (s - -1) / (1 - -1) ≤ 0 := by linarith
      have h2 : (0 : ℚ) ≤ (h : ℚ) - 1 := by linarith
      nlinarith
    have hr := roundAway_nonpos _ hv
    simp only [rowIndex]
    omega
  · intro hs
    unfold SIGNAL_MIN at hs
    have h2 : (0 : ℚ) ≤ (h : ℚ) - 1 := by linarith
    have hv : ((h : ℚ) - 1) ≤ (1 - (s - SIGNAL_MIN) / SIGNAL_RANGE) * ((h : ℚ) - 1) := by
      simp only [SIGNAL_RANGE, SIGNAL_MAX, SIGNAL_MIN]
      have h1 : (1 : ℚ) ≤ 1 - (s - -1) / (1 - -1) := by linarith
      nlinarith
    have hr := le_roundAway ((1 - (s - SIGNAL_MIN) / SIGNAL_RANGE) * ((h : ℚ) - 1))
      ((h : ℤ) - 1) (le_trans h2 hv) (by push_cast; linarith)
    simp only [rowIndex]
    omega

/-- Witness for C10: at plot height 4, an over-range sample maps to row 0
and an under-range sample maps to the bottom row, both inside the grid. -/
theorem rowIndex_in_bounds_witness :
    (rowIndex 4 2 < 4 ∧ rowIndex 4 2 = 0) ∧ rowIndex 4 (-2) = 4 - 1 :=
  ⟨⟨(rowIndex_in_bounds 4 2 (by norm_num)).1,
    (rowIndex_in_bounds 4 2 (by norm_num)).2.1 (by norm_num [SIGNAL_MAX])⟩,
   (rowIndex_in_bounds 4 (-2) (by norm_num)).2.2 (by norm_num [SIGNAL_MIN])⟩

/-- The trace-point loop unrolled: the point stream is the concatenation
of one column block per column, the block of column `i` seeing the row of
column `i - 1` as its previous row (and `prev` for the first column). -/
theorem tracePointsFrom_eq (ys : List ℕ) : ∀ (prev : Option ℕ) (x0 : ℕ),
    tracePointsFrom prev x0 ys =
      ((List.range ys.length).map fun i =>
        colBlock (if i = 0 then prev else some (ys.getD (i - 1) 0)) (x0 + i)
          (ys.getD i 0)).flatten := by
  induction ys with
  | nil => intro prev x0; rfl
  | cons y rest ih =>
    intro prev x0
    show colBlock prev x0 y ++ tracePointsFrom (some y) (x0 + 1) rest = _
    rw [ih (some y) (x0 + 1)]
    rw [List.length_cons, List.range_succ_eq_map, List.map_cons, List.flatten_cons,
      List.map_map]
    have hfun : ((fun i => colBlock (if i = 0 then prev else some ((y :: rest).getD (i - 1) 0))
          (x0 + i) ((y :: rest).getD i 0)) ∘ Nat.succ) =
        (fun i => colBlock (if i = 0 then some y else some (rest.getD (i - 1) 0))
          ((x0 + 1) + i) (rest.getD i 0)) := by
      funext i
      rcases i with _ | j
      · simp [Function.comp]
      · simp only [Function.comp, Nat.succ_eq_add_one]
        have h1 : x0 + (j + 1 + 1) = x0 + 1 + (j + 1) := by omega
        have h2 : (y :: rest).getD (j + 1 + 1) 0 = rest.getD (j + 1) 0 := by simp
        have h3 : (y :: rest).getD (j + 1 + 1 - 1) 0 = rest.getD (j + 1 - 1) 0 := by simp
        rw [h1, h2, h3]
        simp
    rw [hfun]
    congr 1

/-- C4: each column `x` of the rasterized window receives its trace
marker at the row given by the claimed round-and-clamp formula (stated
here as the exact refinement equation for the code's computation), the
point stream is exactly one marker per column plus, whenever consecutive
columns map to different rows, the connector glyphs at that column, and
the connector rows are exactly the rows strictly between the two
consecutive rows. -/
theorem rasterize_trace_spec (h pw : ℕ) (samples : List ℚ) :
    (∀ s : ℚ, ((rowIndex h s : ℤ)) =
      max 0 (min (roundAway ((1 - (s - SIGNAL_MIN) / SIGNAL_RANGE) * ((h : ℚ) - 1)))
        ((h : ℤ) - 1))) ∧
    tracePoints (rasterYs h pw samples) =
      ((List.range (rasterYs h pw samples).length).map fun x =>
        (x, (rasterYs h pw samples).getD x 0, '*') ::
          (if x = 0 then []
           else if (rasterYs h pw samples).getD (x - 1) 0 ≠ (rasterYs h pw samples).getD x 0 then
             (connectorRows ((rasterYs h pw samples).getD (x - 1) 0)
                 ((rasterYs h pw samples).getD x 0)).map fun r => (x, r, '|')
           else [])).flatten ∧
    (∀ a b r : ℕ, r ∈ connectorRows a b ↔ (min a b < r ∧ r < max a b)) := by
  refine ⟨?_, ?_, ?_⟩
  · intro s
    simp only [rowIndex]
    generalize roundAway ((1 - (s - SIGNAL_MIN) / SIGNAL_RANGE) * ((h : ℚ) - 1)) = r
    omega
  · rw [tracePoints, tracePointsFrom_eq]
    apply congrArg List.flatten
    apply List.map_congr_left
    intro i _
    rcases i with _ | j
    · simp [colBlock]
    · simp only [colBlock, Nat.zero_add, Nat.succ_ne_zero, if_false, Nat.add_sub_cancel,
        Nat.add_eq_zero, and_false, one_ne_zero]
  · intro a b r
    unfold connectorRows
    rw [List.mem_range'_1]
    omega

end Electro
